import Mathlib

/-!
# TerminoGrid: the interactive session bridge

A shallow embedding of `dockerClient.ExecBridge` (backend/internal/api/docker_client.go)
and of `Server.execWS` with its `termSetupHook` (backend/internal/api/server.go).

Everything the Go code obtains from outside (the Docker API client, the websocket
connection, the hijacked exec connection, the context, the scheduler's choice in the
`select` statement, `encoding/json` and `strings.ToLower`) is an explicit input; every
call the code makes on those collaborators is recorded as an `Event`.
-/

namespace TerminoGrid

/-! ## Data model -/

/-- A Go byte slice. -/
abbrev Bytes := List UInt8

/-- The conversion `[]byte(s)` of a Go string: its UTF-8 bytes. -/
def toBytes (s : String) : Bytes :=
  s.toList.flatMap String.utf8EncodeChar

/-- A Go `error` value, as far as this code looks at it: the text `err.Error()` gives and
whether `errors.Is(err, io.EOF)` holds. A nil error is `none : Option GoError`. -/
structure GoError where
  text : String
  isEOF : Bool
  deriving DecidableEq, Repr

/-- The sentinel `var errNotFound = errors.New("not found")` of store.go. -/
def errNotFound : GoError := ⟨"not found", false⟩

/-- The sentinel `io.EOF`. -/
def ioEOF : GoError := ⟨"EOF", true⟩

/-- The constants `websocket.TextMessage` and `websocket.BinaryMessage`. -/
def TextMessage : Nat := 1

def BinaryMessage : Nat := 2

/-- The fields of `types.ExecConfig` that ExecBridge sets. -/
structure ExecConfig where
  AttachStdin : Bool
  AttachStdout : Bool
  AttachStderr : Bool
  Tty : Bool
  Cmd : List String
  Env : List String
  deriving DecidableEq, Repr

/-- The response `types.IDResponse` of exec-create. -/
structure IDResponse where
  ID : String
  deriving DecidableEq, Repr

/-- The anonymous struct the client-to-remote pump decodes a text frame into (its field
`Type` is `Type_` here, `Type` being reserved). `Cols` and
`Rows` are Go `int`s. -/
structure ResizeMsg where
  Type_ : String
  Cols : Int
  Rows : Int
  deriving DecidableEq, Repr

/-- The Go conversion `uint(i)` of an `int` on a 64-bit platform. -/
def toUint (i : Int) : Nat :=
  (i % 2 ^ 64).toNat

/-- Every call the code makes on one of its collaborators. -/
inductive Event where
  | ContainerInspect (id : String)
  | ContainerExecCreate (id : String) (cfg : ExecConfig)
  | ContainerExecAttach (execID : String) (tty : Bool)
  | ContainerExecResize (execID : String) (width height : Nat)
  | attachClose
  | attachConnWrite (data : Bytes)
  | wsWriteMessage (mt : Nat) (data : Bytes)
  | wsClose
  | setupHook
  | sleepMs (ms : Nat)
  | httpError (msg : String) (code : Nat)
  | logPrintf (msg : String)
  deriving DecidableEq, Repr

/-- One result `(n, readErr)` of `attach.Reader.Read(buf)`; `data` is `buf[:n]`. -/
structure ReadResult where
  data : Bytes
  err : Option GoError
  deriving DecidableEq, Repr

/-- The attached exec connection `types.HijackedResponse`: the results its reader delivers,
in order, and the error (if any) of the k-th `Conn.Write` call made on it. When `reads` is
used up the next `Read` blocks. -/
structure HijackedResponse where
  reads : List ReadResult
  connWriteErr : Nat → Option GoError

/-- One result `(mt, data, rerr)` of `ws.ReadMessage()`. -/
inductive WsRead where
  | msg (mt : Nat) (data : Bytes)
  | fail (rerr : GoError)
  deriving DecidableEq, Repr

/-- The client websocket connection: the results `ReadMessage` delivers, in order, and the
error (if any) of the k-th `WriteMessage` call made on it. When `reads` is used up the next
`ReadMessage` blocks. -/
structure WSConn where
  reads : List WsRead
  writeErr : Nat → Option GoError

/-- The Docker API client `d.cli`, as far as ExecBridge calls it. The error of
`ContainerExecResize` is discarded by the code and is not an input. -/
structure DockerAPI where
  ContainerInspect : String → Option GoError
  ContainerExecCreate : String → ExecConfig → IDResponse × Option GoError
  ContainerExecAttach : String → Bool → HijackedResponse × Option GoError

/-- The context: `some e` when `ctx.Done()` fires, with `ctx.Err() = e`; `none` when the
context is never cancelled. -/
structure Context where
  doneErr : Option GoError

/-- The library functions `json.Unmarshal(data, &msg)` (`none` when it returns an error)
and `strings.ToLower`. -/
structure Lib where
  jsonUnmarshal : Bytes → Option ResizeMsg
  toLower : String → String

/-- The three cases of the `select` statement at the end of ExecBridge. -/
inductive SelectCase where
  | dockerToWS
  | wsToDocker
  | ctxDone
  deriving DecidableEq, Repr

/-- What a setup hook does when called with the attached connection: the caller state it
leaves (the hook is a closure), the calls it makes and the error it returns. -/
structure HookOut (σ : Type) where
  state : σ
  events : List Event
  err : Option GoError

abbrev Hook (σ : Type) := HijackedResponse → σ → HookOut σ

/-- What one pump goroutine does over its life: the calls it makes, and the value it sends
on its channel (`none` while it is blocked in a read that never returns). -/
structure PumpRun where
  events : List Event
  signal : Option (Option GoError)
  deriving DecidableEq, Repr

/-- A run of ExecBridge: the value returned (`none` when the `select` blocks for ever), the
calls of the calling goroutine in order (deferred calls included), the calls of the two
pump goroutines, and the caller state the hook left. -/
structure BridgeRun (σ : Type) where
  result : Option (Option GoError)
  main : List Event
  dockerToWS : List Event
  wsToDocker : List Event
  state : σ

/-! ## dockerClient.Exists and the shell negotiation loop -/

/-- The method `dockerClient.Exists`: `ContainerInspect` returned no error. -/
def dockerClient.Exists (cli : DockerAPI) (id : String) : Bool :=
  (cli.ContainerInspect id).isNone

/-- The candidate list `shells` of ExecBridge. -/
def shells : List (List String) :=
  [["/bin/bash", "-li"], ["/usr/bin/bash", "-li"], ["/bin/sh", "-i"], ["/usr/bin/sh", "-i"]]

/-- The `types.ExecConfig` built for a candidate. -/
def execConfig (cmd : List String) : ExecConfig where
  AttachStdin := true
  AttachStdout := true
  AttachStderr := true
  Tty := true
  Cmd := cmd
  Env := ["TERM=xterm-256color", "COLORTERM=truecolor", "CLICOLOR_FORCE=1", "FORCE_COLOR=1"]

/-- The variables `resp`, `err` and `picked` of ExecBridge and the calls made so far. -/
structure Negotiation where
  resp : IDResponse
  err : Option GoError
  picked : List String
  events : List Event
  deriving DecidableEq, Repr

/-- The loop `for _, cmd := range shells`: each candidate overwrites `resp` and `err`; the
first one with `err == nil && resp.ID != ""` sets `picked` and breaks. -/
def negotiate (cli : DockerAPI) (containerID : String) :
    List (List String) → Negotiation → Negotiation
  | [], st => st
  | cmd :: rest, st =>
    let r := cli.ContainerExecCreate containerID (execConfig cmd)
    let st1 : Negotiation :=
      { resp := r.1, err := r.2, picked := st.picked,
        events := st.events ++ [Event.ContainerExecCreate containerID (execConfig cmd)] }
    if r.2 = none ∧ r.1.ID ≠ "" then { st1 with picked := cmd }
    else negotiate cli containerID rest st1

/-! ## The two pumps -/

/-- The value the remote-to-client pump sends for a read error: nil for end-of-stream. -/
def readSignal (readErr : GoError) : Option GoError :=
  if readErr.isEOF then none else some readErr

/-- The goroutine "Pump docker -> ws"; `k` counts the `WriteMessage` calls made on `ws`
before the next one. -/
def pumpDockerToWS (ws : WSConn) : Nat → List ReadResult → PumpRun
  | _, [] => ⟨[], none⟩
  | k, r :: rest =>
    if r.data.length > 0 then
      match ws.writeErr k with
      | some werr => ⟨[Event.wsWriteMessage BinaryMessage r.data], some (some werr)⟩
      | none =>
        match r.err with
        | some readErr =>
          ⟨[Event.wsWriteMessage BinaryMessage r.data], some (readSignal readErr)⟩
        | none =>
          let p := pumpDockerToWS ws (k + 1) rest
          ⟨Event.wsWriteMessage BinaryMessage r.data :: p.events, p.signal⟩
    else
      match r.err with
      | some readErr => ⟨[], some (readSignal readErr)⟩
      | none => pumpDockerToWS ws k rest

/-- The test `json.Unmarshal(data, &msg) == nil && strings.ToLower(msg.Type) == "resize"`,
with the decoded message when it holds. -/
def resizeOf (lib : Lib) (data : Bytes) : Option ResizeMsg :=
  match lib.jsonUnmarshal data with
  | some m => if lib.toLower m.Type_ = "resize" then some m else none
  | none => none

/-- The goroutine "Pump ws -> docker (and handle resize)"; `k` counts the `Conn.Write`
calls made on the attached connection before the next one. -/
def pumpWsToDocker (lib : Lib) (execID : String) (attach : HijackedResponse) :
    Nat → List WsRead → PumpRun
  | _, [] => ⟨[], none⟩
  | _, WsRead.fail rerr :: _ => ⟨[], some (some rerr)⟩
  | k, WsRead.msg mt data :: rest =>
    let forward : PumpRun :=
      match attach.connWriteErr k with
      | some werr => ⟨[Event.attachConnWrite data], some (some werr)⟩
      | none =>
        let p := pumpWsToDocker lib execID attach (k + 1) rest
        ⟨Event.attachConnWrite data :: p.events, p.signal⟩
    if mt = TextMessage then
      match resizeOf lib data with
      | some m =>
        let p := pumpWsToDocker lib execID attach k rest
        ⟨Event.ContainerExecResize execID (toUint m.Cols) (toUint m.Rows) :: p.events, p.signal⟩
      | none => forward
    else forward

/-! ## ExecBridge -/

/-- Whether a case of the `select` statement can proceed: its channel holds a value, or
the context is done. -/
def caseReady (d2w w2d : PumpRun) (ctx : Context) : SelectCase → Bool
  | SelectCase.dockerToWS => d2w.signal.isSome
  | SelectCase.wsToDocker => w2d.signal.isSome
  | SelectCase.ctxDone => ctx.doneErr.isSome

/-- The case the `select` statement takes: the first one that can proceed, in the order
`sched` in which the scheduler serves them; `none` when none ever can. -/
def selectCase (sched : List SelectCase) (d2w w2d : PumpRun) (ctx : Context) :
    Option SelectCase :=
  sched.find? (caseReady d2w w2d ctx)

/-- The number of `Conn.Write` calls among some events. -/
def connWrites (evs : List Event) : Nat :=
  (evs.filter fun e => match e with
    | Event.attachConnWrite _ => true
    | _ => false).length

/-- The frame "[shell] ..." that tells the client which shell was picked. -/
def shellNote (picked : List String) : List Event :=
  if picked.length > 0 then
    [Event.wsWriteMessage BinaryMessage (toBytes ("[shell] " ++ " ".intercalate picked ++ "\n"))]
  else []

/-- The part of ExecBridge after the setup hook: start both pumps, wait in the `select`,
run the deferred `attach.Close()` on return. `pre` holds the calls made before, `k0` the
number of websocket frames written before, `c0` the number of writes made to the attached
connection before, `s` the caller state. -/
def bridge {σ : Type} (lib : Lib) (ctx : Context) (sched : List SelectCase) (ws : WSConn)
    (execID : String) (attach : HijackedResponse) (pre : List Event) (k0 c0 : Nat) (s : σ) :
    BridgeRun σ :=
  let d2w := pumpDockerToWS ws k0 attach.reads
  let w2d := pumpWsToDocker lib execID attach c0 ws.reads
  match selectCase sched d2w w2d ctx with
  | some SelectCase.dockerToWS =>
    ⟨d2w.signal, pre ++ [Event.attachClose], d2w.events, w2d.events, s⟩
  | some SelectCase.wsToDocker =>
    ⟨w2d.signal, pre ++ [Event.attachClose, Event.attachClose], d2w.events, w2d.events, s⟩
  | some SelectCase.ctxDone =>
    ⟨some ctx.doneErr, pre ++ [Event.attachClose], d2w.events, w2d.events, s⟩
  | none => ⟨none, pre, d2w.events, w2d.events, s⟩

/-- The state of the negotiation when the loop over `shells` is left, `Exists` having
succeeded. -/
def negotiated (cli : DockerAPI) (containerID : String) : Negotiation :=
  negotiate cli containerID shells ⟨⟨""⟩, none, [], [Event.ContainerInspect containerID]⟩

/-- The method `dockerClient.ExecBridge`. The variadic `setupHook` is a list whose elements
may be nil; `s` is the caller state a hook closes over. The call of the hook is recorded as
`Event.setupHook`, followed by the calls the hook makes. -/
def dockerClient.ExecBridge {σ : Type} (lib : Lib) (cli : DockerAPI) (ctx : Context)
    (sched : List SelectCase) (ws : WSConn) (containerID : String)
    (setupHook : List (Option (Hook σ))) (s : σ) : BridgeRun σ :=
  if !dockerClient.Exists cli containerID then
    ⟨some (some errNotFound), [Event.ContainerInspect containerID], [], [], s⟩
  else
    let n := negotiated cli containerID
    if n.err ≠ none ∨ n.resp.ID = "" then
      ⟨some n.err, n.events, [], [], s⟩
    else
      let a := cli.ContainerExecAttach n.resp.ID true
      let ev1 := n.events ++ [Event.ContainerExecAttach n.resp.ID true]
      match a.2 with
      | some err => ⟨some (some err), ev1, [], [], s⟩
      | none =>
        let attach := a.1
        let note := shellNote n.picked
        let ev2 := ev1 ++ note
        match setupHook with
        | some hook :: _ =>
          let h := hook attach s
          match h.err with
          | some err =>
            ⟨some (some err), ev2 ++ Event.setupHook :: h.events ++ [Event.attachClose], [], [],
              h.state⟩
          | none =>
            bridge lib ctx sched ws n.resp.ID attach (ev2 ++ Event.setupHook :: h.events)
              note.length (connWrites h.events) h.state
        | _ => bridge lib ctx sched ws n.resp.ID attach ev2 note.length 0 s

/-! ## Server.execWS and its setup hook -/

/-- The record `sessionState` of server.go. -/
structure sessionState where
  bootstrapSent : Bool
  deriving DecidableEq, Repr

/-- The map `activeSessions`. -/
abbrev Registry := String → Option sessionState

/-- The assignment `s.activeSessions[key] = session`. -/
def Registry.insert (m : Registry) (key : String) (session : sessionState) : Registry :=
  fun k => if k = key then some session else m k

/-- The call `delete(s.activeSessions, key)`. -/
def Registry.delete (m : Registry) (key : String) : Registry :=
  fun k => if k = key then none else m k

/-- The fields of `Server` that execWS uses; `dcli = none` is the nil client. -/
structure Server where
  dcli : Option DockerAPI
  activeSessions : Registry

/-- The constant `termBootstrapScript`. -/
def termBootstrapScript : String :=
  "export TERM=xterm-256color COLORTERM=truecolor CLICOLOR_FORCE=1 FORCE_COLOR=1; \\\n" ++
  "alias ls=\x27ls --color=auto\x27; alias grep=\x27grep --color=auto\x27 " ++
  "2>/dev/null || true; \\\n" ++
  "export LESS=\x27-R\x27; \\\n" ++
  "if [ -d /etc/apt/apt.conf.d ]; then printf \x27APT::Color \x221\x22;\\n\x27 > " ++
  "/etc/apt/apt.conf.d/99tg-color; fi; \\\n" ++
  "PS1=\x27\\[\\e[38;2;52;226;226m\\]\\u\\[\\e[0m\\]\\[\\e[38;2;85;87;83m\\]@\\[\\e[0m\\]" ++
  "\\[\\e[38;2;114;159;207m\\]\\h\\[\\e[0m\\] \\[\\e[38;2;138;226;52m\\]\\w\\[\\e[0m\\] " ++
  "\\$ \x27\n"

/-- The closure `termSetupHook` of execWS; the caller state it closes over is the session
record. It runs before any other write on the attached connection, so its write is call
number 0 there. The check and the set of `bootstrapSent` happen under `sessionMutex`. -/
def termSetupHook : Hook sessionState := fun attach session =>
  let bootstrapSent := session.bootstrapSent
  let session1 : sessionState := if !bootstrapSent then { bootstrapSent := true } else session
  if !bootstrapSent then
    ⟨session1,
      [Event.sleepMs 100, Event.attachConnWrite (toBytes (termBootstrapScript ++ "\n"))],
      attach.connWriteErr 0⟩
  else ⟨session1, [], none⟩

/-- A run of execWS: whether it returns, the registry it leaves, the registry at the moment
ExecBridge is called (`none` when it is not called), and the calls made, in order, on the
calling goroutine (deferred calls included) and by the two pumps. -/
structure ExecWSRun where
  returned : Bool
  activeSessions : Registry
  atBridge : Option Registry
  main : List Event
  dockerToWS : List Event
  wsToDocker : List Event

/-- The method `Server.execWS`. `upgrade` is the result of `upgrader.Upgrade`, `now` the
text `time.Now().Format("20060102-150405.000")`. The registry holds a pointer to the session
record, so its entry shows what the hook did to the record. The demo echo after
`if s.dcli != nil { ...; return }` cannot be reached (the function returns early when
`s.dcli == nil`) and is left out. -/
def Server.execWS (lib : Lib) (srv : Server) (ctx : Context) (sched : List SelectCase)
    (upgrade : Except GoError WSConn) (now : String) (id : String) : ExecWSRun :=
  match srv.dcli with
  | none =>
    ⟨true, srv.activeSessions, none, [Event.httpError "Docker daemon unavailable" 503], [], []⟩
  | some cli =>
    match upgrade with
    | Except.error err =>
      ⟨true, srv.activeSessions, none, [Event.logPrintf ("ws upgrade: " ++ err.text)], [], []⟩
    | Except.ok conn =>
      let sessionID := id ++ "-" ++ now
      let session : sessionState := { bootstrapSent := false }
      let reg := srv.activeSessions.insert sessionID session
      let run := dockerClient.ExecBridge lib cli ctx sched conn id [some termSetupHook] session
      match run.result with
      | none =>
        ⟨false, reg.insert sessionID run.state, some reg, run.main, run.dockerToWS,
          run.wsToDocker⟩
      | some r =>
        let diag : List Event :=
          match r with
          | some err =>
            [Event.wsWriteMessage BinaryMessage (toBytes ("[exec error] " ++ err.text ++ "\n"))]
          | none => []
        ⟨true, (reg.insert sessionID run.state).delete sessionID, some reg,
          run.main ++ diag ++ [Event.wsClose], run.dockerToWS, run.wsToDocker⟩

/-! ## Vocabulary of the statements -/

/-- The runtime accepts a candidate: exec-create returns no error and a non-empty ID. -/
def accepted (cli : DockerAPI) (containerID : String) (cmd : List String) : Bool :=
  decide ((cli.ContainerExecCreate containerID (execConfig cmd)).2 = none ∧
    (cli.ContainerExecCreate containerID (execConfig cmd)).1.ID ≠ "")

/-- The exec-create call ExecBridge makes for a candidate. -/
def createCall (containerID : String) (cmd : List String) : Event :=
  Event.ContainerExecCreate containerID (execConfig cmd)

/-- The execution ID the runtime returns for a candidate. -/
def execIDOf (cli : DockerAPI) (containerID : String) (cmd : List String) : String :=
  (cli.ContainerExecCreate containerID (execConfig cmd)).1.ID

/-- Whether an event is an exec-create call. -/
def isExecCreate : Event → Bool
  | Event.ContainerExecCreate _ _ => true
  | _ => false

/-- Whether an event is the inspection of the target, the first call of every ExecBridge
run. -/
def isInspect : Event → Bool
  | Event.ContainerInspect _ => true
  | _ => false

/-- The calls the setup hook makes if ExecBridge calls it: those of the first element of
`setupHook` when there is one and it is not nil. -/
def hookEvents {σ : Type} (setupHook : List (Option (Hook σ))) (attach : HijackedResponse)
    (s : σ) : List Event :=
  match setupHook with
  | some hook :: _ => Event.setupHook :: (hook attach s).events
  | _ => []

/-- The error the setup hook returns if ExecBridge calls it (nil when it is not called). -/
def hookErr {σ : Type} (setupHook : List (Option (Hook σ))) (attach : HijackedResponse)
    (s : σ) : Option GoError :=
  match setupHook with
  | some hook :: _ => (hook attach s).err
  | _ => none

/-- The caller state after the setup hook, if ExecBridge calls it. -/
def hookState {σ : Type} (setupHook : List (Option (Hook σ))) (attach : HijackedResponse)
    (s : σ) : σ :=
  match setupHook with
  | some hook :: _ => (hook attach s).state
  | _ => s

/-- The connection `ContainerExecAttach` returns for the negotiated execution ID. -/
def attachOf (cli : DockerAPI) (id : String) : HijackedResponse :=
  (cli.ContainerExecAttach (negotiated cli id).resp.ID true).1

/-- Bridging starts: the target exists, a candidate was accepted, the attach succeeded and
the setup hook (if any) returned no error. -/
def bridgingStarted {σ : Type} (cli : DockerAPI) (id : String)
    (setupHook : List (Option (Hook σ))) (s : σ) : Bool :=
  dockerClient.Exists cli id &&
    decide ((negotiated cli id).err = none ∧ (negotiated cli id).resp.ID ≠ "") &&
    decide ((cli.ContainerExecAttach (negotiated cli id).resp.ID true).2 = none) &&
    decide (hookErr setupHook (attachOf cli id) s = none)

/-- The calls ExecBridge has made on the calling goroutine when the pumps start. -/
def setupCalls {σ : Type} (cli : DockerAPI) (id : String)
    (setupHook : List (Option (Hook σ))) (s : σ) : List Event :=
  (negotiated cli id).events ++ [Event.ContainerExecAttach (negotiated cli id).resp.ID true] ++
    shellNote (negotiated cli id).picked ++ hookEvents setupHook (attachOf cli id) s

/-- The remote-to-client pump as ExecBridge starts it. -/
def remotePump (ws : WSConn) (cli : DockerAPI) (id : String) : PumpRun :=
  pumpDockerToWS ws (shellNote (negotiated cli id).picked).length (attachOf cli id).reads

/-- The client-to-remote pump as ExecBridge starts it. -/
def clientPump {σ : Type} (lib : Lib) (ws : WSConn) (cli : DockerAPI) (id : String)
    (setupHook : List (Option (Hook σ))) (s : σ) : PumpRun :=
  pumpWsToDocker lib (negotiated cli id).resp.ID (attachOf cli id)
    (connWrites (hookEvents setupHook (attachOf cli id) s)) ws.reads

/-- The binary frame carrying a chunk. -/
def frame (data : Bytes) : Event :=
  Event.wsWriteMessage BinaryMessage data

/-- The reads the remote-to-client pump gets to see: those up to and including the first
one that comes with an error. -/
def readsUntilError : List ReadResult → List ReadResult
  | [] => []
  | r :: rest => if r.err.isSome then [r] else r :: readsUntilError rest

/-- The non-empty chunks among the reads the pump gets to see, in the order read. -/
def chunksRead (rs : List ReadResult) : List Bytes :=
  ((readsUntilError rs).filter fun r => 0 < r.data.length).map fun r => r.data

/-- The error the reads end with: that of the first read that comes with one. -/
def readEnd : List ReadResult → Option GoError
  | [] => none
  | r :: rest => if r.err.isSome then r.err else readEnd rest

/-- The outcomes of successive invocations of `termSetupHook` on one session, the i-th
with the i-th connection of the list. -/
def hookSeq : List HijackedResponse → sessionState → List (HookOut sessionState)
  | [], _ => []
  | a :: rest, session =>
    termSetupHook a session :: hookSeq rest (termSetupHook a session).state

/-- All calls made by a sequence of hook invocations. -/
def hookSeqEvents (outs : List (HookOut sessionState)) : List Event :=
  outs.flatMap fun o => o.events

/-! ## Sample inputs -/

/-- The error a client read fails with when the client goes away. -/
def closeErr : GoError := ⟨"websocket: close 1001 (going away)", false⟩

/-- The error of a cancelled context. -/
def canceledErr : GoError := ⟨"context canceled", false⟩

/-- The text frame with the JSON fields type = resize, cols = 80 and rows = 24. -/
def resizeFrame : Bytes :=
  toBytes "\x7b\x22type\x22:\x22resize\x22,\x22cols\x22:80,\x22rows\x22:24\x7d"

/-- The text frame with the single JSON field type = resize: no cols and no rows field. -/
def bareResizeFrame : Bytes :=
  toBytes "\x7b\x22type\x22:\x22resize\x22\x7d"

/-- The text frame with the JSON fields type = resize, cols = 9223372036854775808 (2^63,
one more than the largest Go int) and rows = 24. -/
def hugeColsFrame : Bytes :=
  toBytes
    "\x7b\x22type\x22:\x22resize\x22,\x22cols\x22:9223372036854775808,\x22rows\x22:24\x7d"

/-- A decoder that agrees with `json.Unmarshal` on the sample frames and on text that is
not JSON, and ASCII lower-casing. Fields that are absent from the JSON text keep their zero
value; a number that does not fit the Go int field it is decoded into, as the cols of
`hugeColsFrame`, makes `json.Unmarshal` return an error, as does text that is not JSON. -/
def demoLib : Lib where
  jsonUnmarshal := fun data =>
    if data = resizeFrame then some ⟨"resize", 80, 24⟩
    else if data = bareResizeFrame then some ⟨"resize", 0, 0⟩
    else none
  toLower := fun t => String.mk (t.toList.map Char.toLower)

/-- An attached connection whose remote side has emitted "file1" and a newline and is
still running; every write to it succeeds. -/
def demoAttach : HijackedResponse where
  reads := [⟨toBytes "file1\n", none⟩]
  connWriteErr := fun _ => none

/-- An attached connection whose remote side emits "file1" and a newline and then ends. -/
def endedAttach : HijackedResponse where
  reads := [⟨toBytes "file1\n", none⟩, ⟨[], some ioEOF⟩]
  connWriteErr := fun _ => none

/-- A runtime that knows only the target "c1", has no bash and accepts "/bin/sh -i" with the
execution ID "exec-1"; attaching gives `attach`. -/
def demoCli (attach : HijackedResponse) : DockerAPI where
  ContainerInspect := fun id =>
    if id = "c1" then none else some ⟨"Error: No such container: " ++ id, false⟩
  ContainerExecCreate := fun _ cfg =>
    if cfg.Cmd = ["/bin/sh", "-i"] then (⟨"exec-1"⟩, none)
    else (⟨""⟩, some ⟨"exec failed: no such file or directory", false⟩)
  ContainerExecAttach := fun _ _ => (attach, none)

/-- A runtime that knows the target "c1" and answers every exec-create with an empty
execution ID and no error. -/
def emptyIDCli : DockerAPI where
  ContainerInspect := fun id =>
    if id = "c1" then none else some ⟨"Error: No such container: " ++ id, false⟩
  ContainerExecCreate := fun _ _ => (⟨""⟩, none)
  ContainerExecAttach := fun _ _ => (demoAttach, none)

/-- A client that sends a resize frame, then the text "ls" and a newline, then goes away;
every write to it succeeds. -/
def demoWS : WSConn where
  reads := [WsRead.msg TextMessage resizeFrame, WsRead.msg TextMessage (toBytes "ls\n"),
    WsRead.fail closeErr]
  writeErr := fun _ => none

/-- A client whose second frame cannot be written. -/
def brokenWS : WSConn where
  reads := []
  writeErr := fun k => if k = 1 then some closeErr else none

/-- Reads of a remote side that emits "a", an empty read, "b" and "c", then fails. -/
def threeReads : List ReadResult :=
  [⟨toBytes "a", none⟩, ⟨[], none⟩, ⟨toBytes "b", none⟩,
    ⟨toBytes "c", some ⟨"read: connection reset by peer", false⟩⟩, ⟨toBytes "d", none⟩]

/-- A context that is never cancelled. -/
def background : Context := ⟨none⟩

/-- A context that is cancelled. -/
def canceled : Context := ⟨some canceledErr⟩

/-- A scheduler that serves the three cases in the order they are written. -/
def inOrder : List SelectCase :=
  [SelectCase.dockerToWS, SelectCase.wsToDocker, SelectCase.ctxDone]

/-- A server with a Docker client and an empty registry. -/
def demoServer : Server where
  dcli := some (demoCli demoAttach)
  activeSessions := fun _ => none

/-! ## Lemmas on the negotiation loop and the pumps -/

theorem exists_first_true {α : Type} (p : α → Bool) (l : List α)
    (h : ∃ x ∈ l, p x = true) :
    ∃ pre c post, l = pre ++ c :: post ∧ (∀ x ∈ pre, p x = false) ∧ p c = true := by
  induction l with
  | nil => simp at h
  | cons a t ih =>
    by_cases ha : p a = true
    · exact ⟨[], a, t, by simp, by simp, ha⟩
    · have ht : ∃ x ∈ t, p x = true := by
        obtain ⟨x, hx, hpx⟩ := h
        rcases List.mem_cons.mp hx with rfl | hx
        · exact absurd hpx ha
        · exact ⟨x, hx, hpx⟩
      obtain ⟨pre, c, post, hl, hpre, hc⟩ := ih ht
      refine ⟨a :: pre, c, post, by simp [hl], ?_, hc⟩
      intro x hx
      rcases List.mem_cons.mp hx with rfl | hx
      · simpa using ha
      · exact hpre x hx

theorem negotiate_first (cli : DockerAPI) (id : String) (pre : List (List String))
    (c : List String) (post : List (List String)) (st : Negotiation)
    (hpre : ∀ x ∈ pre, accepted cli id x = false) (hc : accepted cli id c = true) :
    negotiate cli id (pre ++ c :: post) st =
      { resp := (cli.ContainerExecCreate id (execConfig c)).1, err := none, picked := c,
        events := st.events ++ (pre ++ [c]).map (createCall id) } := by
  induction pre generalizing st with
  | nil =>
    simp only [accepted, decide_eq_true_eq] at hc
    simp [negotiate, hc, createCall]
  | cons a t ih =>
    have ha : accepted cli id a = false := hpre a (List.mem_cons_self a t)
    simp only [accepted, decide_eq_false_iff_not] at ha
    have ht : ∀ x ∈ t, accepted cli id x = false :=
      fun x hx => hpre x (List.mem_cons_of_mem a hx)
    rw [List.cons_append, negotiate]
    simp only [if_neg ha]
    rw [ih _ ht]
    simp [createCall]

theorem negotiate_none (cli : DockerAPI) (id : String) (init : List (List String))
    (z : List String) (st : Negotiation)
    (hl : ∀ x ∈ init ++ [z], accepted cli id x = false) :
    negotiate cli id (init ++ [z]) st =
      { resp := (cli.ContainerExecCreate id (execConfig z)).1,
        err := (cli.ContainerExecCreate id (execConfig z)).2,
        picked := st.picked,
        events := st.events ++ (init ++ [z]).map (createCall id) } := by
  induction init generalizing st with
  | nil =>
    have hz : accepted cli id z = false := hl z (by simp)
    simp only [accepted, decide_eq_false_iff_not] at hz
    rw [List.nil_append, negotiate]
    simp only [if_neg hz]
    simp [negotiate, createCall]
  | cons a t ih =>
    have ha : accepted cli id a = false := hl a (by simp)
    simp only [accepted, decide_eq_false_iff_not] at ha
    have ht : ∀ x ∈ t ++ [z], accepted cli id x = false :=
      fun x hx => hl x (by simp only [List.cons_append]; exact List.mem_cons_of_mem a hx)
    rw [List.cons_append, negotiate]
    simp only [if_neg ha]
    rw [ih _ ht]
    simp [createCall]

theorem pumpDockerToWS_no_create (ws : WSConn) (k : Nat) (rs : List ReadResult) :
    ∀ e ∈ (pumpDockerToWS ws k rs).events, isExecCreate e = false := by
  induction rs generalizing k with
  | nil => simp [pumpDockerToWS]
  | cons r rest ih =>
    unfold pumpDockerToWS
    split
    · split
      · simp [isExecCreate]
      · split
        · simp [isExecCreate]
        · intro e he
          rcases List.mem_cons.mp he with rfl | he
          · rfl
          · exact ih _ e he
    · split
      · simp
      · exact ih k

theorem pumpWsToDocker_no_create (lib : Lib) (execID : String) (attach : HijackedResponse)
    (k : Nat) (ms : List WsRead) :
    ∀ e ∈ (pumpWsToDocker lib execID attach k ms).events, isExecCreate e = false := by
  induction ms generalizing k with
  | nil => simp [pumpWsToDocker]
  | cons m rest ih =>
    cases m with
    | fail rerr => simp [pumpWsToDocker]
    | msg mt data =>
      have hfwd : ∀ e ∈ (match attach.connWriteErr k with
          | some werr => (⟨[Event.attachConnWrite data], some (some werr)⟩ : PumpRun)
          | none => ⟨Event.attachConnWrite data ::
              (pumpWsToDocker lib execID attach (k + 1) rest).events,
              (pumpWsToDocker lib execID attach (k + 1) rest).signal⟩).events,
          isExecCreate e = false := by
        split
        · simp [isExecCreate]
        · intro e he
          rcases List.mem_cons.mp he with rfl | he
          · rfl
          · exact ih _ e he
      simp only [pumpWsToDocker]
      split
      · split
        · intro e he
          rcases List.mem_cons.mp he with rfl | he
          · rfl
          · exact ih _ e he
        · exact hfwd
      · exact hfwd

theorem shellNote_of_mem (c : List String) (hc : c ∈ shells) :
    shellNote c =
      [Event.wsWriteMessage BinaryMessage (toBytes ("[shell] " ++ " ".intercalate c ++ "\n"))] := by
  simp only [shells, List.mem_cons, List.mem_singleton, List.not_mem_nil, or_false] at hc
  rcases hc with rfl | rfl | rfl | rfl <;> simp [shellNote]

theorem bridge_main {σ : Type} (lib : Lib) (ctx : Context) (sched : List SelectCase)
    (ws : WSConn) (execID : String) (attach : HijackedResponse) (pre : List Event)
    (k0 c0 : Nat) (s : σ) :
    ∃ m, (bridge lib ctx sched ws execID attach pre k0 c0 s).main =
      pre ++ List.replicate m Event.attachClose := by
  simp only [bridge]
  split
  · exact ⟨1, by simp⟩
  · exact ⟨2, by simp [List.replicate]⟩
  · exact ⟨1, by simp⟩
  · exact ⟨0, by simp⟩

theorem bridge_pumps {σ : Type} (lib : Lib) (ctx : Context) (sched : List SelectCase)
    (ws : WSConn) (execID : String) (attach : HijackedResponse) (pre : List Event)
    (k0 c0 : Nat) (s : σ) :
    (bridge lib ctx sched ws execID attach pre k0 c0 s).dockerToWS =
        (pumpDockerToWS ws k0 attach.reads).events ∧
      (bridge lib ctx sched ws execID attach pre k0 c0 s).wsToDocker =
        (pumpWsToDocker lib execID attach c0 ws.reads).events := by
  simp only [bridge]
  split <;> simp

/-! ## Shell negotiation -/

/-- C1. When the target exists and the runtime accepts at least one candidate, ExecBridge
calls exec-create for the candidates in list order, once each, up to and including the first
accepted one and for none after it (neither on the calling goroutine nor in a pump); it then
attaches to the execution ID returned for that first accepted candidate and, once attached,
announces that candidate to the client in the "[shell] ..." frame. What follows on the
calling goroutine are only the calls of the setup hook and the closing of the handle. -/
theorem ExecBridge_first_accepted {σ : Type} (lib : Lib) (cli : DockerAPI) (ctx : Context)
    (sched : List SelectCase) (ws : WSConn) (id : String)
    (setupHook : List (Option (Hook σ))) (s : σ)
    (hex : dockerClient.Exists cli id = true)
    (hacc : ∃ cmd ∈ shells, accepted cli id cmd = true) :
    ∃ pre c post m, shells = pre ++ c :: post ∧ (∀ x ∈ pre, accepted cli id x = false) ∧
      accepted cli id c = true ∧
      (dockerClient.ExecBridge lib cli ctx sched ws id setupHook s).main =
        Event.ContainerInspect id :: (pre ++ [c]).map (createCall id) ++
          Event.ContainerExecAttach (execIDOf cli id c) true ::
          (if (cli.ContainerExecAttach (execIDOf cli id c) true).2 = none then
            Event.wsWriteMessage BinaryMessage
                (toBytes ("[shell] " ++ " ".intercalate c ++ "\n")) ::
              (hookEvents setupHook (cli.ContainerExecAttach (execIDOf cli id c) true).1 s ++
                List.replicate m Event.attachClose)
          else []) ∧
      (∀ e ∈ (dockerClient.ExecBridge lib cli ctx sched ws id setupHook s).dockerToWS,
        isExecCreate e = false) ∧
      (∀ e ∈ (dockerClient.ExecBridge lib cli ctx sched ws id setupHook s).wsToDocker,
        isExecCreate e = false) := by
  obtain ⟨pre, c, post, hsh, hpre, hc⟩ := exists_first_true (accepted cli id) shells hacc
  have hcmem : c ∈ shells := by rw [hsh]; simp
  have hc2 := hc
  simp only [accepted, decide_eq_true_eq] at hc2
  have hneg := negotiate_first cli id pre c post
    ⟨⟨""⟩, none, [], [Event.ContainerInspect id]⟩ hpre hc
  rw [← hsh] at hneg
  change negotiated cli id = _ at hneg
  have hcond : ¬ ((none : Option GoError) ≠ none ∨
      (cli.ContainerExecCreate id (execConfig c)).1.ID = "") := by
    simp [hc2.2]
  unfold dockerClient.ExecBridge
  simp only [hex, Bool.not_true, Bool.false_eq_true, if_false, hneg, if_neg hcond]
  cases hatt : (cli.ContainerExecAttach
      (cli.ContainerExecCreate id (execConfig c)).1.ID true).2 with
  | some err =>
    refine ⟨pre, c, post, 0, hsh, hpre, hc, ?_, ?_, ?_⟩
    · simp [execIDOf, hatt]
    · simp
    · simp
  | none =>
    rw [shellNote_of_mem c hcmem]
    match setupHook with
    | [] =>
      obtain ⟨m, hm⟩ := bridge_main lib ctx sched ws
        (cli.ContainerExecCreate id (execConfig c)).1.ID
        (cli.ContainerExecAttach (cli.ContainerExecCreate id (execConfig c)).1.ID true).1
        ([Event.ContainerInspect id] ++ List.map (createCall id) (pre ++ [c]) ++
          [Event.ContainerExecAttach (cli.ContainerExecCreate id (execConfig c)).1.ID true] ++
          [Event.wsWriteMessage BinaryMessage
            (toBytes ("[shell] " ++ " ".intercalate c ++ "\n"))]) 1 0 s
      refine ⟨pre, c, post, m, hsh, hpre, hc, ?_, ?_, ?_⟩
      · simp only [List.length_singleton]
        rw [hm]
        simp [execIDOf, hatt, hookEvents]
      · simp only [List.length_singleton]
        rw [(bridge_pumps _ _ _ _ _ _ _ _ _ _).1]
        exact pumpDockerToWS_no_create _ _ _
      · simp only [List.length_singleton]
        rw [(bridge_pumps _ _ _ _ _ _ _ _ _ _).2]
        exact pumpWsToDocker_no_create _ _ _ _ _
    | none :: rest =>
      obtain ⟨m, hm⟩ := bridge_main lib ctx sched ws
        (cli.ContainerExecCreate id (execConfig c)).1.ID
        (cli.ContainerExecAttach (cli.ContainerExecCreate id (execConfig c)).1.ID true).1
        ([Event.ContainerInspect id] ++ List.map (createCall id) (pre ++ [c]) ++
          [Event.ContainerExecAttach (cli.ContainerExecCreate id (execConfig c)).1.ID true] ++
          [Event.wsWriteMessage BinaryMessage
            (toBytes ("[shell] " ++ " ".intercalate c ++ "\n"))]) 1 0 s
      refine ⟨pre, c, post, m, hsh, hpre, hc, ?_, ?_, ?_⟩
      · simp only [List.length_singleton]
        rw [hm]
        simp [execIDOf, hatt, hookEvents]
      · simp only [List.length_singleton]
        rw [(bridge_pumps _ _ _ _ _ _ _ _ _ _).1]
        exact pumpDockerToWS_no_create _ _ _
      · simp only [List.length_singleton]
        rw [(bridge_pumps _ _ _ _ _ _ _ _ _ _).2]
        exact pumpWsToDocker_no_create _ _ _ _ _
    | some hook :: rest =>
      simp only []
      cases hherr : (hook (cli.ContainerExecAttach
          (cli.ContainerExecCreate id (execConfig c)).1.ID true).1 s).err with
      | some err =>
        refine ⟨pre, c, post, 1, hsh, hpre, hc, ?_, ?_, ?_⟩
        · simp [execIDOf, hatt, hookEvents]
        · simp
        · simp
      | none =>
        obtain ⟨m, hm⟩ := bridge_main lib ctx sched ws
          (cli.ContainerExecCreate id (execConfig c)).1.ID
          (cli.ContainerExecAttach (cli.ContainerExecCreate id (execConfig c)).1.ID true).1
          ([Event.ContainerInspect id] ++ List.map (createCall id) (pre ++ [c]) ++
            [Event.ContainerExecAttach (cli.ContainerExecCreate id (execConfig c)).1.ID true] ++
            [Event.wsWriteMessage BinaryMessage
              (toBytes ("[shell] " ++ " ".intercalate c ++ "\n"))] ++
            Event.setupHook :: (hook (cli.ContainerExecAttach
              (cli.ContainerExecCreate id (execConfig c)).1.ID true).1 s).events) 1
          (connWrites (hook (cli.ContainerExecAttach
              (cli.ContainerExecCreate id (execConfig c)).1.ID true).1 s).events)
          (hook (cli.ContainerExecAttach
              (cli.ContainerExecCreate id (execConfig c)).1.ID true).1 s).state
        refine ⟨pre, c, post, m, hsh, hpre, hc, ?_, ?_, ?_⟩
        · simp only [List.length_singleton]
          rw [hm]
          simp [execIDOf, hatt, hookEvents]
        · simp only [List.length_singleton]
          rw [(bridge_pumps _ _ _ _ _ _ _ _ _ _).1]
          exact pumpDockerToWS_no_create _ _ _
        · simp only [List.length_singleton]
          rw [(bridge_pumps _ _ _ _ _ _ _ _ _ _).2]
          exact pumpWsToDocker_no_create _ _ _ _ _

theorem ExecBridge_first_accepted_witness :
    dockerClient.Exists (demoCli demoAttach) "c1" = true ∧
    (∃ cmd ∈ shells, accepted (demoCli demoAttach) "c1" cmd = true) ∧
    ∃ pre c post m, shells = pre ++ c :: post ∧
      (∀ x ∈ pre, accepted (demoCli demoAttach) "c1" x = false) ∧
      accepted (demoCli demoAttach) "c1" c = true ∧
      (dockerClient.ExecBridge demoLib (demoCli demoAttach) background inOrder demoWS "c1"
          [some termSetupHook] ⟨false⟩).main =
        Event.ContainerInspect "c1" :: (pre ++ [c]).map (createCall "c1") ++
          Event.ContainerExecAttach (execIDOf (demoCli demoAttach) "c1" c) true ::
          (if ((demoCli demoAttach).ContainerExecAttach
              (execIDOf (demoCli demoAttach) "c1" c) true).2 = none then
            Event.wsWriteMessage BinaryMessage
                (toBytes ("[shell] " ++ " ".intercalate c ++ "\n")) ::
              (hookEvents [some termSetupHook] ((demoCli demoAttach).ContainerExecAttach
                  (execIDOf (demoCli demoAttach) "c1" c) true).1 ⟨false⟩ ++
                List.replicate m Event.attachClose)
          else []) ∧
      (∀ e ∈ (dockerClient.ExecBridge demoLib (demoCli demoAttach) background inOrder demoWS
          "c1" [some termSetupHook] ⟨false⟩).dockerToWS, isExecCreate e = false) ∧
      (∀ e ∈ (dockerClient.ExecBridge demoLib (demoCli demoAttach) background inOrder demoWS
          "c1" [some termSetupHook] ⟨false⟩).wsToDocker, isExecCreate e = false) :=
  ⟨by decide, ⟨["/bin/sh", "-i"], by decide, by decide⟩,
    ExecBridge_first_accepted demoLib (demoCli demoAttach) background inOrder demoWS "c1"
      [some termSetupHook] ⟨false⟩ (by decide) ⟨["/bin/sh", "-i"], by decide, by decide⟩⟩

/-- When the target exists and the runtime accepts no candidate, ExecBridge calls
exec-create once for each candidate, in order, makes no other call (it never attaches), and
returns the `err` value of the last candidate, which is nil when that candidate came back
with an empty ID and no error. -/
theorem ExecBridge_none_accepted {σ : Type} (lib : Lib) (cli : DockerAPI) (ctx : Context)
    (sched : List SelectCase) (ws : WSConn) (id : String)
    (setupHook : List (Option (Hook σ))) (s : σ)
    (hex : dockerClient.Exists cli id = true)
    (hrej : ∀ cmd ∈ shells, accepted cli id cmd = false) :
    (dockerClient.ExecBridge lib cli ctx sched ws id setupHook s).result =
        some (cli.ContainerExecCreate id (execConfig ["/usr/bin/sh", "-i"])).2 ∧
      (dockerClient.ExecBridge lib cli ctx sched ws id setupHook s).main =
        Event.ContainerInspect id :: shells.map (createCall id) ∧
      (dockerClient.ExecBridge lib cli ctx sched ws id setupHook s).dockerToWS = [] ∧
      (dockerClient.ExecBridge lib cli ctx sched ws id setupHook s).wsToDocker = [] := by
  have hneg := negotiate_none cli id
    [["/bin/bash", "-li"], ["/usr/bin/bash", "-li"], ["/bin/sh", "-i"]] ["/usr/bin/sh", "-i"]
    ⟨⟨""⟩, none, [], [Event.ContainerInspect id]⟩ hrej
  change negotiated cli id = _ at hneg
  have hlast := hrej ["/usr/bin/sh", "-i"] (by simp [shells])
  simp only [accepted, decide_eq_false_iff_not, not_and_or, not_not] at hlast
  have hcond : (cli.ContainerExecCreate id (execConfig ["/usr/bin/sh", "-i"])).2 ≠ none ∨
      (cli.ContainerExecCreate id (execConfig ["/usr/bin/sh", "-i"])).1.ID = "" := hlast
  unfold dockerClient.ExecBridge
  simp only [hex, Bool.not_true, Bool.false_eq_true, if_false, hneg, if_pos hcond]
  simp [shells]

/-- C2. A runtime that knows the target and answers every exec-create with an empty
execution ID and no error accepts no candidate; ExecBridge tries all four candidates, never
attaches, and returns nil, which is not a failure. -/
theorem ExecBridge_empty_ids_return_nil :
    (∀ cmd ∈ shells, accepted emptyIDCli "c1" cmd = false) ∧
    (dockerClient.ExecBridge demoLib emptyIDCli background inOrder demoWS "c1"
        [some termSetupHook] ⟨false⟩).result = some none ∧
    (dockerClient.ExecBridge demoLib emptyIDCli background inOrder demoWS "c1"
        [some termSetupHook] ⟨false⟩).main =
      Event.ContainerInspect "c1" :: shells.map (createCall "c1") := by
  decide

/-! ## The existence check -/

/-- C3. When the existence check on the target is false, ExecBridge returns errNotFound
having made no call but the inspection: no exec-create for any candidate, no attach, no call
of the setup hook (the caller state is untouched), and no pump is started. -/
theorem ExecBridge_not_found {σ : Type} (lib : Lib) (cli : DockerAPI) (ctx : Context)
    (sched : List SelectCase) (ws : WSConn) (id : String)
    (setupHook : List (Option (Hook σ))) (s : σ)
    (hex : dockerClient.Exists cli id = false) :
    (dockerClient.ExecBridge lib cli ctx sched ws id setupHook s).result =
        some (some errNotFound) ∧
      (dockerClient.ExecBridge lib cli ctx sched ws id setupHook s).main =
        [Event.ContainerInspect id] ∧
      (dockerClient.ExecBridge lib cli ctx sched ws id setupHook s).dockerToWS = [] ∧
      (dockerClient.ExecBridge lib cli ctx sched ws id setupHook s).wsToDocker = [] ∧
      (dockerClient.ExecBridge lib cli ctx sched ws id setupHook s).state = s := by
  unfold dockerClient.ExecBridge
  simp [hex]

theorem ExecBridge_not_found_witness :
    dockerClient.Exists (demoCli demoAttach) "missing" = false ∧
    (dockerClient.ExecBridge demoLib (demoCli demoAttach) background inOrder demoWS "missing"
        [some termSetupHook] ⟨false⟩).result = some (some errNotFound) ∧
      (dockerClient.ExecBridge demoLib (demoCli demoAttach) background inOrder demoWS "missing"
        [some termSetupHook] ⟨false⟩).main = [Event.ContainerInspect "missing"] ∧
      (dockerClient.ExecBridge demoLib (demoCli demoAttach) background inOrder demoWS "missing"
        [some termSetupHook] ⟨false⟩).dockerToWS = [] ∧
      (dockerClient.ExecBridge demoLib (demoCli demoAttach) background inOrder demoWS "missing"
        [some termSetupHook] ⟨false⟩).wsToDocker = [] ∧
      (dockerClient.ExecBridge demoLib (demoCli demoAttach) background inOrder demoWS "missing"
        [some termSetupHook] ⟨false⟩).state = ⟨false⟩ :=
  ⟨by decide, ExecBridge_not_found demoLib (demoCli demoAttach) background inOrder demoWS
    "missing" [some termSetupHook] ⟨false⟩ (by decide)⟩

/-! ## The client-to-remote pump -/

theorem toUint_of_int (c : Nat) (hc : (c : Int) < 2 ^ 63) : toUint (c : Int) = c := by
  have h1 : c < 2 ^ 64 := by
    have : (c : Int) < 2 ^ 64 := by linarith [show (2 : Int) ^ 63 ≤ 2 ^ 64 by norm_num]
    exact_mod_cast this
  unfold toUint
  have h2 : ((c : Int) % 2 ^ 64) = ((c % 2 ^ 64 : Nat) : Int) := by
    push_cast
    rfl
  rw [h2, Int.toNat_ofNat, Nat.mod_eq_of_lt h1]

/-- C4, amended. A text frame that `json.Unmarshal` decodes without error to type T, cols C
and rows R, where `strings.ToLower(T)` is "resize" and C and R are Go ints (below 2^63)
that are not negative (the positive ones of the claim among them), makes the
client-to-remote pump call the resize operation once, with width C and height R; the pump
writes nothing to the remote input for it and goes on with the next message, the count of
writes unchanged. -/
theorem pumpWsToDocker_resize (lib : Lib) (execID : String) (attach : HijackedResponse)
    (k : Nat) (data : Bytes) (rest : List WsRead) (T : String) (C R : Nat)
    (hdec : lib.jsonUnmarshal data = some ⟨T, (C : Int), (R : Int)⟩)
    (hT : lib.toLower T = "resize")
    (hCint : (C : Int) < 2 ^ 63) (hRint : (R : Int) < 2 ^ 63) :
    pumpWsToDocker lib execID attach k (WsRead.msg TextMessage data :: rest) =
      ⟨Event.ContainerExecResize execID C R ::
          (pumpWsToDocker lib execID attach k rest).events,
        (pumpWsToDocker lib execID attach k rest).signal⟩ := by
  simp [pumpWsToDocker, resizeOf, hdec, hT, toUint_of_int C hCint, toUint_of_int R hRint]

theorem pumpWsToDocker_resize_witness :
    demoLib.jsonUnmarshal resizeFrame =
        some ⟨"resize", ((80 : Nat) : Int), ((24 : Nat) : Int)⟩ ∧
      demoLib.toLower "resize" = "resize" ∧ (((80 : Nat) : Int) < 2 ^ 63) ∧
      (((24 : Nat) : Int) < 2 ^ 63) ∧
      pumpWsToDocker demoLib "exec-1" demoAttach 0
          (WsRead.msg TextMessage resizeFrame :: [WsRead.fail closeErr]) =
        ⟨Event.ContainerExecResize "exec-1" 80 24 ::
            (pumpWsToDocker demoLib "exec-1" demoAttach 0 [WsRead.fail closeErr]).events,
          (pumpWsToDocker demoLib "exec-1" demoAttach 0 [WsRead.fail closeErr]).signal⟩ :=
  ⟨by decide, by decide, by decide, by decide,
    pumpWsToDocker_resize demoLib "exec-1" demoAttach 0 resizeFrame [WsRead.fail closeErr]
      "resize" 80 24 (by decide) (by decide) (by decide) (by decide)⟩

/-- C4, as stated, fails: the text frame with type = resize, cols = 2^63 and rows = 24 is
a well-formed JSON object with positive integers, but cols does not fit the Go int field,
so `json.Unmarshal` returns an error; the pump then writes the raw frame to the remote
input and does not call the resize operation. -/
theorem pumpWsToDocker_huge_cols_forwarded :
    demoLib.jsonUnmarshal hugeColsFrame = none ∧
      pumpWsToDocker demoLib "exec-1" demoAttach 0 [WsRead.msg TextMessage hugeColsFrame] =
        ⟨[Event.attachConnWrite hugeColsFrame], none⟩ ∧
      (∀ w h, Event.ContainerExecResize "exec-1" w h ∉
        (pumpWsToDocker demoLib "exec-1" demoAttach 0
          [WsRead.msg TextMessage hugeColsFrame]).events) := by
  refine ⟨by decide, by decide, ?_⟩
  intro w h hmem
  have hev : (pumpWsToDocker demoLib "exec-1" demoAttach 0
      [WsRead.msg TextMessage hugeColsFrame]).events =
      [Event.attachConnWrite hugeColsFrame] := by decide
  rw [hev] at hmem
  simp at hmem

/-- C5, as stated, fails: the text frame with the single field type = resize has neither
a cols nor a rows field, yet it decodes (both fields zero), so the pump calls the resize
operation with width 0 and height 0 and writes nothing to the remote input. -/
theorem pumpWsToDocker_bare_resize_not_forwarded :
    pumpWsToDocker demoLib "exec-1" demoAttach 0 [WsRead.msg TextMessage bareResizeFrame] =
        ⟨[Event.ContainerExecResize "exec-1" 0 0], none⟩ ∧
      Event.attachConnWrite bareResizeFrame ∉
        (pumpWsToDocker demoLib "exec-1" demoAttach 0
          [WsRead.msg TextMessage bareResizeFrame]).events := by
  decide

/-- C5, amended. For every frame that is not a text frame, and every text frame that
`json.Unmarshal` rejects or whose decoded type is not "resize" after `strings.ToLower`, the
client-to-remote pump makes exactly one call for the message: a write of the unmodified
payload to the remote input, and no resize. When the write succeeds the pump goes on with
the next message; when it fails the pump stops and sends the write error. -/
theorem pumpWsToDocker_forward (lib : Lib) (execID : String) (attach : HijackedResponse)
    (k : Nat) (mt : Nat) (data : Bytes) (rest : List WsRead)
    (h : mt ≠ TextMessage ∨ lib.jsonUnmarshal data = none ∨
      ∃ m, lib.jsonUnmarshal data = some m ∧ lib.toLower m.Type_ ≠ "resize") :
    pumpWsToDocker lib execID attach k (WsRead.msg mt data :: rest) =
      match attach.connWriteErr k with
      | some werr => ⟨[Event.attachConnWrite data], some (some werr)⟩
      | none =>
        ⟨Event.attachConnWrite data :: (pumpWsToDocker lib execID attach (k + 1) rest).events,
          (pumpWsToDocker lib execID attach (k + 1) rest).signal⟩ := by
  rcases h with h | h | ⟨m, hm, hne⟩
  · simp [pumpWsToDocker, h]
  · simp [pumpWsToDocker, resizeOf, h]
  · simp [pumpWsToDocker, resizeOf, hm, hne]

theorem pumpWsToDocker_forward_witness :
    (TextMessage ≠ TextMessage ∨ demoLib.jsonUnmarshal (toBytes "ls\n") = none ∨
      ∃ m, demoLib.jsonUnmarshal (toBytes "ls\n") = some m ∧
        demoLib.toLower m.Type_ ≠ "resize") ∧
    pumpWsToDocker demoLib "exec-1" demoAttach 0
        (WsRead.msg TextMessage (toBytes "ls\n") :: [WsRead.fail closeErr]) =
      match demoAttach.connWriteErr 0 with
      | some werr => ⟨[Event.attachConnWrite (toBytes "ls\n")], some (some werr)⟩
      | none =>
        ⟨Event.attachConnWrite (toBytes "ls\n") ::
            (pumpWsToDocker demoLib "exec-1" demoAttach (0 + 1) [WsRead.fail closeErr]).events,
          (pumpWsToDocker demoLib "exec-1" demoAttach (0 + 1) [WsRead.fail closeErr]).signal⟩ :=
  ⟨Or.inr (Or.inl (by decide)),
    pumpWsToDocker_forward demoLib "exec-1" demoAttach 0 TextMessage (toBytes "ls\n")
      [WsRead.fail closeErr] (Or.inr (Or.inl (by decide)))⟩

/-! ## The remote-to-client pump -/

theorem chunksRead_cons (r : ReadResult) (rest : List ReadResult) :
    chunksRead (r :: rest) =
      (if 0 < r.data.length then [r.data] else []) ++
        (if r.err.isSome then [] else chunksRead rest) := by
  unfold chunksRead
  by_cases he : r.err.isSome = true <;> by_cases hd : 0 < r.data.length <;>
    simp [readsUntilError, he, hd, List.filter_cons]

/-- C9. For every sequence of read results of the remote output, with `chunksRead` the
non-empty chunks among the reads up to and including the first read that comes with an
error, in the order read: if the j-th client write is the first to fail, the pump has
written one binary frame for each of the first j+1 chunks, in order, each holding exactly
the chunk, and sends the write error; if no client write fails, the pump writes one binary
frame for every chunk, in order, and sends nil when the reads end with end-of-stream, the
read error when they end with another error, and nothing while no read has failed. -/
theorem pumpDockerToWS_frames (ws : WSConn) (k : Nat) (rs : List ReadResult) :
    (∀ j werr, j < (chunksRead rs).length → (∀ i, i < j → ws.writeErr (k + i) = none) →
        ws.writeErr (k + j) = some werr →
        (pumpDockerToWS ws k rs).events = ((chunksRead rs).take (j + 1)).map frame ∧
          (pumpDockerToWS ws k rs).signal = some (some werr)) ∧
      ((∀ i, i < (chunksRead rs).length → ws.writeErr (k + i) = none) →
        (pumpDockerToWS ws k rs).events = (chunksRead rs).map frame ∧
          (pumpDockerToWS ws k rs).signal =
            (readEnd rs).map fun e => if e.isEOF then none else some e) := by
  induction rs generalizing k with
  | nil => simp [pumpDockerToWS, chunksRead, readsUntilError, readEnd]
  | cons r rest ih =>
    rw [chunksRead_cons]
    by_cases hd : 0 < r.data.length
    · cases hw : ws.writeErr k with
      | some werr0 =>
        constructor
        · intro j werr _ hprev hj
          cases j with
          | zero =>
            have : werr0 = werr := by
              have h0 : ws.writeErr k = some werr := by simpa using hj
              rw [hw] at h0
              exact Option.some.inj h0
            subst this
            simp [pumpDockerToWS, hd, hw, frame]
          | succ j =>
            have h0 := hprev 0 (Nat.succ_pos j)
            simp [hw] at h0
        · intro hall
          have h0 := hall 0 (by simp [hd])
          simp [hw] at h0
      | none =>
        cases he : r.err with
        | some e =>
          constructor
          · intro j werr hj _ hfail
            have hj0 : j = 0 := by
              simp [hd, he] at hj
              exact hj
            subst hj0
            simp [hw] at hfail
          · intro _
            simp [pumpDockerToWS, hd, hw, he, frame, readEnd, readSignal]
        | none =>
          obtain ⟨ih1, ih2⟩ := ih (k + 1)
          constructor
          · intro j werr hj hprev hfail
            cases j with
            | zero => simp [hw] at hfail
            | succ j =>
              have hj2 : j < (chunksRead rest).length := by
                simp [hd, he] at hj
                omega
              have hprev2 : ∀ i, i < j → ws.writeErr (k + 1 + i) = none := by
                intro i hi
                have := hprev (i + 1) (by omega)
                rwa [show k + (i + 1) = k + 1 + i by omega] at this
              have hfail2 : ws.writeErr (k + 1 + j) = some werr := by
                rwa [show k + (j + 1) = k + 1 + j by omega] at hfail
              obtain ⟨h1, h2⟩ := ih1 j werr hj2 hprev2 hfail2
              simp [pumpDockerToWS, hd, hw, he, h1, h2, frame]
          · intro hall
            have hall2 : ∀ i, i < (chunksRead rest).length →
                ws.writeErr (k + 1 + i) = none := by
              intro i hi
              have := hall (i + 1) (by simp [hd, he]; omega)
              rwa [show k + (i + 1) = k + 1 + i by omega] at this
            obtain ⟨h1, h2⟩ := ih2 hall2
            simp [pumpDockerToWS, hd, hw, he, h1, h2, frame, readEnd]
    · cases he : r.err with
      | some e =>
        constructor
        · intro j werr hj
          simp [hd, he] at hj
        · intro _
          simp [pumpDockerToWS, hd, he, readEnd, readSignal]
      | none =>
        obtain ⟨ih1, ih2⟩ := ih k
        constructor
        · intro j werr hj hprev hfail
          have hj2 : j < (chunksRead rest).length := by simpa [hd, he] using hj
          obtain ⟨h1, h2⟩ := ih1 j werr hj2 hprev hfail
          simp [pumpDockerToWS, hd, he, h1, h2]
        · intro hall
          have hall2 : ∀ i, i < (chunksRead rest).length → ws.writeErr (k + i) = none := by
            intro i hi
            exact hall i (by simpa [hd, he] using hi)
          obtain ⟨h1, h2⟩ := ih2 hall2
          simp [pumpDockerToWS, hd, he, h1, h2, readEnd]

theorem pumpDockerToWS_frames_witness :
    (1 < (chunksRead threeReads).length ∧
      (∀ i, i < 1 → brokenWS.writeErr (0 + i) = none) ∧
      brokenWS.writeErr (0 + 1) = some closeErr ∧
      (pumpDockerToWS brokenWS 0 threeReads).events =
        ((chunksRead threeReads).take (1 + 1)).map frame ∧
      (pumpDockerToWS brokenWS 0 threeReads).signal = some (some closeErr)) ∧
    ((∀ i, i < (chunksRead threeReads).length → demoWS.writeErr (0 + i) = none) ∧
      (pumpDockerToWS demoWS 0 threeReads).events = (chunksRead threeReads).map frame ∧
      (pumpDockerToWS demoWS 0 threeReads).signal =
        (readEnd threeReads).map fun e => if e.isEOF then none else some e) :=
  ⟨⟨by decide, by decide, by decide,
      (pumpDockerToWS_frames brokenWS 0 threeReads).1 1 closeErr (by decide) (by decide)
        (by decide)⟩,
    ⟨fun _ _ => rfl, (pumpDockerToWS_frames demoWS 0 threeReads).2 (fun _ _ => rfl)⟩⟩

/-! ## The setup hook of execWS -/

theorem hookSeq_sent (rest : List HijackedResponse) :
    hookSeq rest ⟨true⟩ = rest.map fun _ => ⟨⟨true⟩, [], none⟩ := by
  induction rest with
  | nil => rfl
  | cons a t ih => simp [hookSeq, termSetupHook, ih]

theorem hookSeqEvents_sent (rest : List HijackedResponse) :
    hookSeqEvents (hookSeq rest ⟨true⟩) = [] := by
  rw [hookSeq_sent]
  induction rest with
  | nil => rfl
  | cons a t _ => simp [hookSeqEvents]

/-- C6. For a session created with bootstrapSent false and every sequence of one or more
invocations of termSetupHook on it: the first invocation sets bootstrapSent, waits 100 ms
and writes termBootstrapScript followed by a newline to the remote input, returning the
error of that write; every later invocation makes no call and returns nil; so the whole
sequence writes to the remote input exactly once. For every session, in whatever state,
a sequence of invocations writes at most once, and after any invocation bootstrapSent is
true, whether or not the write succeeded. -/
theorem termSetupHook_once :
    (∀ (a : HijackedResponse) (rest : List HijackedResponse),
      hookSeq (a :: rest) ⟨false⟩ =
          ⟨⟨true⟩,
            [Event.sleepMs 100, Event.attachConnWrite (toBytes (termBootstrapScript ++ "\n"))],
            a.connWriteErr 0⟩ :: rest.map (fun _ => ⟨⟨true⟩, [], none⟩) ∧
        connWrites (hookSeqEvents (hookSeq (a :: rest) ⟨false⟩)) = 1) ∧
      (∀ (attaches : List HijackedResponse) (session : sessionState),
        connWrites (hookSeqEvents (hookSeq attaches session)) ≤ 1) ∧
      (∀ (attach : HijackedResponse) (session : sessionState),
        (termSetupHook attach session).state.bootstrapSent = true) := by
  have hfirst : ∀ (a : HijackedResponse) (rest : List HijackedResponse),
      hookSeq (a :: rest) ⟨false⟩ =
          ⟨⟨true⟩,
            [Event.sleepMs 100, Event.attachConnWrite (toBytes (termBootstrapScript ++ "\n"))],
            a.connWriteErr 0⟩ :: rest.map (fun _ => ⟨⟨true⟩, [], none⟩) ∧
        connWrites (hookSeqEvents (hookSeq (a :: rest) ⟨false⟩)) = 1 := by
    intro a rest
    have h1 : hookSeq (a :: rest) ⟨false⟩ =
        ⟨⟨true⟩,
          [Event.sleepMs 100, Event.attachConnWrite (toBytes (termBootstrapScript ++ "\n"))],
          a.connWriteErr 0⟩ :: hookSeq rest ⟨true⟩ := by
      simp [hookSeq, termSetupHook]
    have h2 : hookSeqEvents (hookSeq (a :: rest) ⟨false⟩) =
        [Event.sleepMs 100, Event.attachConnWrite (toBytes (termBootstrapScript ++ "\n"))] := by
      have h3 := hookSeqEvents_sent rest
      rw [h1]
      simp only [hookSeqEvents, List.flatMap_cons] at h3 ⊢
      rw [h3]
      simp
    refine ⟨?_, ?_⟩
    · rw [h1, hookSeq_sent]
    · rw [h2]
      simp [connWrites]
  refine ⟨hfirst, ?_, ?_⟩
  · intro attaches session
    cases session with
    | mk b =>
      cases b with
      | true => simp [hookSeqEvents_sent, connWrites]
      | false =>
        cases attaches with
        | nil => simp [hookSeq, hookSeqEvents, connWrites]
        | cons a rest => exact le_of_eq (hfirst a rest).2
  · intro attach session
    cases session with
    | mk b => cases b <;> simp [termSetupHook]

/-! ## The select statement of ExecBridge -/

theorem connWrites_hookEvents {σ : Type} (hook : Hook σ) (rest : List (Option (Hook σ)))
    (attach : HijackedResponse) (s : σ) :
    connWrites (hookEvents (some hook :: rest) attach s) = connWrites (hook attach s).events := by
  simp [hookEvents, connWrites, List.filter_cons]

theorem ExecBridge_bridging {σ : Type} (lib : Lib) (cli : DockerAPI) (ctx : Context)
    (sched : List SelectCase) (ws : WSConn) (id : String)
    (setupHook : List (Option (Hook σ))) (s : σ)
    (h : bridgingStarted cli id setupHook s = true) :
    dockerClient.ExecBridge lib cli ctx sched ws id setupHook s =
      bridge lib ctx sched ws (negotiated cli id).resp.ID (attachOf cli id)
        (setupCalls cli id setupHook s) (shellNote (negotiated cli id).picked).length
        (connWrites (hookEvents setupHook (attachOf cli id) s))
        (hookState setupHook (attachOf cli id) s) := by
  simp only [bridgingStarted, Bool.and_eq_true, decide_eq_true_eq] at h
  obtain ⟨⟨⟨hex, herr, hid⟩, hatt⟩, hhook⟩ := h
  have hcond : ¬ ((negotiated cli id).err ≠ none ∨ (negotiated cli id).resp.ID = "") := by
    simp [herr, hid]
  unfold dockerClient.ExecBridge
  simp only [hex, Bool.not_true, Bool.false_eq_true, if_false, if_neg hcond, hatt]
  match setupHook, hhook with
  | [], _ => simp [setupCalls, hookEvents, hookState, attachOf, connWrites]
  | none :: rest, _ => simp [setupCalls, hookEvents, hookState, attachOf, connWrites]
  | some hook :: rest, hhook =>
    have hh : (hook (cli.ContainerExecAttach (negotiated cli id).resp.ID true).1 s).err = none := by
      simpa [hookErr, attachOf] using hhook
    simp only [hh, connWrites_hookEvents]
    simp [setupCalls, hookEvents, hookState, attachOf]

theorem negotiate_events (cli : DockerAPI) (id : String) (l : List (List String))
    (st : Negotiation) :
    ∀ e ∈ (negotiate cli id l st).events, e ∈ st.events ∨ isExecCreate e = true := by
  induction l generalizing st with
  | nil => intro e he; exact Or.inl he
  | cons a t ih =>
    intro e he
    rw [negotiate] at he
    split at he
    · simp only [List.mem_append, List.mem_singleton] at he
      rcases he with he | rfl
      · exact Or.inl he
      · exact Or.inr rfl
    · rcases ih _ e he with h | h
      · simp only [List.mem_append, List.mem_singleton] at h
        rcases h with h | rfl
        · exact Or.inl h
        · exact Or.inr rfl
      · exact Or.inr h

theorem pumpDockerToWS_no_close (ws : WSConn) (k : Nat) (rs : List ReadResult) :
    Event.wsClose ∉ (pumpDockerToWS ws k rs).events := by
  induction rs generalizing k with
  | nil => simp [pumpDockerToWS]
  | cons r rest ih =>
    unfold pumpDockerToWS
    split
    · split
      · simp
      · split
        · simp
        · simp only [List.mem_cons, not_or]
          exact ⟨by simp, ih _⟩
    · split
      · simp
      · exact ih k

theorem pumpWsToDocker_no_close (lib : Lib) (execID : String) (attach : HijackedResponse)
    (k : Nat) (ms : List WsRead) :
    Event.wsClose ∉ (pumpWsToDocker lib execID attach k ms).events := by
  induction ms generalizing k with
  | nil => simp [pumpWsToDocker]
  | cons m rest ih =>
    cases m with
    | fail rerr => simp [pumpWsToDocker]
    | msg mt data =>
      have hfwd : Event.wsClose ∉ (match attach.connWriteErr k with
          | some werr => (⟨[Event.attachConnWrite data], some (some werr)⟩ : PumpRun)
          | none => ⟨Event.attachConnWrite data ::
              (pumpWsToDocker lib execID attach (k + 1) rest).events,
              (pumpWsToDocker lib execID attach (k + 1) rest).signal⟩).events := by
        split
        · simp
        · simp only [List.mem_cons, not_or]
          exact ⟨by simp, ih _⟩
      simp only [pumpWsToDocker]
      split
      · split
        · simp only [List.mem_cons, not_or]
          exact ⟨by simp, ih _⟩
        · exact hfwd
      · exact hfwd

theorem setupCalls_close {σ : Type} (cli : DockerAPI) (id : String)
    (setupHook : List (Option (Hook σ))) (s : σ)
    (h : Event.wsClose ∈ setupCalls cli id setupHook s) :
    Event.wsClose ∈ hookEvents setupHook (attachOf cli id) s := by
  simp only [setupCalls, List.mem_append, List.mem_singleton] at h
  rcases h with ((h | h) | h) | h
  · rcases negotiate_events cli id shells _ _ h with h1 | h1
    · simp at h1
    · simp [isExecCreate] at h1
  · cases h
  · unfold shellNote at h
    split at h <;> simp at h
  · exact h

/-- C7. Once bridging has started, what ExecBridge returns is decided by the case the
select statement takes. Remote-to-client pump: its value is returned, and after the setup
calls the calling goroutine only closes the remote handle (the deferred close). Client-to-remote
pump: the remote handle is closed explicitly and once more by the deferred close, and that
pump's value is returned. Context done: the context's error, which is not nil, is returned
after the deferred close. Whenever ExecBridge returns, the last call it made is the closing
of the remote handle; and neither ExecBridge nor a pump closes the client stream: such a
call could only come from the setup hook. -/
theorem ExecBridge_select {σ : Type} (lib : Lib) (cli : DockerAPI) (ctx : Context)
    (sched : List SelectCase) (ws : WSConn) (id : String)
    (setupHook : List (Option (Hook σ))) (s : σ)
    (h : bridgingStarted cli id setupHook s = true) :
    (selectCase sched (remotePump ws cli id) (clientPump lib ws cli id setupHook s) ctx =
        some SelectCase.dockerToWS →
      (dockerClient.ExecBridge lib cli ctx sched ws id setupHook s).result =
          (remotePump ws cli id).signal ∧
        (remotePump ws cli id).signal ≠ none ∧
        (dockerClient.ExecBridge lib cli ctx sched ws id setupHook s).main =
          setupCalls cli id setupHook s ++ [Event.attachClose]) ∧
    (selectCase sched (remotePump ws cli id) (clientPump lib ws cli id setupHook s) ctx =
        some SelectCase.wsToDocker →
      (dockerClient.ExecBridge lib cli ctx sched ws id setupHook s).result =
          (clientPump lib ws cli id setupHook s).signal ∧
        (clientPump lib ws cli id setupHook s).signal ≠ none ∧
        (dockerClient.ExecBridge lib cli ctx sched ws id setupHook s).main =
          setupCalls cli id setupHook s ++ [Event.attachClose, Event.attachClose]) ∧
    (selectCase sched (remotePump ws cli id) (clientPump lib ws cli id setupHook s) ctx =
        some SelectCase.ctxDone →
      (dockerClient.ExecBridge lib cli ctx sched ws id setupHook s).result =
          some ctx.doneErr ∧
        ctx.doneErr ≠ none ∧
        (dockerClient.ExecBridge lib cli ctx sched ws id setupHook s).main =
          setupCalls cli id setupHook s ++ [Event.attachClose]) ∧
    ((dockerClient.ExecBridge lib cli ctx sched ws id setupHook s).result ≠ none →
      (dockerClient.ExecBridge lib cli ctx sched ws id setupHook s).main.getLast? =
        some Event.attachClose) ∧
    (Event.wsClose ∈ (dockerClient.ExecBridge lib cli ctx sched ws id setupHook s).main ++
        (dockerClient.ExecBridge lib cli ctx sched ws id setupHook s).dockerToWS ++
        (dockerClient.ExecBridge lib cli ctx sched ws id setupHook s).wsToDocker →
      Event.wsClose ∈ hookEvents setupHook (attachOf cli id) s) := by
  rw [ExecBridge_bridging lib cli ctx sched ws id setupHook s h]
  have hready : ∀ c, selectCase sched (remotePump ws cli id)
      (clientPump lib ws cli id setupHook s) ctx = some c →
      caseReady (remotePump ws cli id) (clientPump lib ws cli id setupHook s) ctx c = true := by
    intro c hc
    exact List.find?_some hc
  have hd2w := pumpDockerToWS_no_close ws (shellNote (negotiated cli id).picked).length
    (attachOf cli id).reads
  have hw2d := pumpWsToDocker_no_close lib (negotiated cli id).resp.ID (attachOf cli id)
    (connWrites (hookEvents setupHook (attachOf cli id) s)) ws.reads
  have hsetup := setupCalls_close cli id setupHook s
  simp only [remotePump, clientPump] at hready ⊢
  simp only [bridge]
  refine ⟨?_, ?_, ?_, ?_, ?_⟩
  · intro hc
    have hr := hready _ hc
    simp only [caseReady, Option.isSome_iff_ne_none] at hr
    simp only [hc]
    exact ⟨trivial, hr, trivial⟩
  · intro hc
    have hr := hready _ hc
    simp only [caseReady, Option.isSome_iff_ne_none] at hr
    simp only [hc]
    exact ⟨trivial, hr, trivial⟩
  · intro hc
    have hr := hready _ hc
    simp only [caseReady, Option.isSome_iff_ne_none] at hr
    simp only [hc]
    exact ⟨trivial, hr, trivial⟩
  · split <;> simp
  · split <;>
      · simp only [List.mem_append, List.mem_singleton, List.mem_cons, List.not_mem_nil,
          or_false]
        intro hmem
        rcases hmem with (hmem | hmem) | hmem
        · first
          | exact hsetup hmem
          | (rcases hmem with hmem | hmem
             · exact hsetup hmem
             · simp at hmem)
        · exact absurd hmem hd2w
        · exact absurd hmem hw2d

theorem ExecBridge_select_witness :
    bridgingStarted (demoCli endedAttach) "c1" [some termSetupHook] ⟨false⟩ = true ∧
    (dockerClient.ExecBridge demoLib (demoCli endedAttach) canceled [SelectCase.dockerToWS]
        demoWS "c1" [some termSetupHook] ⟨false⟩).result =
      (remotePump demoWS (demoCli endedAttach) "c1").signal ∧
    (dockerClient.ExecBridge demoLib (demoCli endedAttach) canceled [SelectCase.wsToDocker]
        demoWS "c1" [some termSetupHook] ⟨false⟩).result =
      (clientPump demoLib demoWS (demoCli endedAttach) "c1" [some termSetupHook]
        (⟨false⟩ : sessionState)).signal ∧
    (dockerClient.ExecBridge demoLib (demoCli endedAttach) canceled [SelectCase.ctxDone]
        demoWS "c1" [some termSetupHook] ⟨false⟩).result = some canceled.doneErr ∧
    (dockerClient.ExecBridge demoLib (demoCli endedAttach) canceled [SelectCase.ctxDone]
        demoWS "c1" [some termSetupHook] ⟨false⟩).main.getLast? = some Event.attachClose :=
  ⟨by decide,
    ((ExecBridge_select demoLib (demoCli endedAttach) canceled [SelectCase.dockerToWS] demoWS
      "c1" [some termSetupHook] ⟨false⟩ (by decide)).1 (by decide)).1,
    ((ExecBridge_select demoLib (demoCli endedAttach) canceled [SelectCase.wsToDocker] demoWS
      "c1" [some termSetupHook] ⟨false⟩ (by decide)).2.1 (by decide)).1,
    ((ExecBridge_select demoLib (demoCli endedAttach) canceled [SelectCase.ctxDone] demoWS
      "c1" [some termSetupHook] ⟨false⟩ (by decide)).2.2.1 (by decide)).1,
    (ExecBridge_select demoLib (demoCli endedAttach) canceled [SelectCase.ctxDone] demoWS
      "c1" [some termSetupHook] ⟨false⟩ (by decide)).2.2.2.1 (by decide)⟩

/-! ## Client disconnect -/

theorem pumpWsToDocker_read_fails (lib : Lib) (execID : String) (attach : HijackedResponse)
    (k : Nat) (msgs : List (Nat × Bytes)) (rerr : GoError) (rest : List WsRead)
    (hwrites : ∀ i, attach.connWriteErr i = none) :
    (pumpWsToDocker lib execID attach k
      (msgs.map (fun m => WsRead.msg m.1 m.2) ++ WsRead.fail rerr :: rest)).signal =
        some (some rerr) := by
  induction msgs generalizing k with
  | nil => simp [pumpWsToDocker]
  | cons m t ih =>
    simp only [List.map_cons, List.cons_append, pumpWsToDocker, hwrites]
    split
    · split
      · exact ih k
      · exact ih (k + 1)
    · exact ih (k + 1)

theorem selectCase_only_client (sched : List SelectCase) (d2w w2d : PumpRun) (ctx : Context)
    (hd : d2w.signal = none) (hw : w2d.signal ≠ none) (hctx : ctx.doneErr = none)
    (hs : SelectCase.wsToDocker ∈ sched) :
    selectCase sched d2w w2d ctx = some SelectCase.wsToDocker := by
  unfold selectCase
  induction sched with
  | nil => simp at hs
  | cons c t ih =>
    cases c with
    | dockerToWS =>
      have ht : SelectCase.wsToDocker ∈ t := by simpa using hs
      simp [List.find?_cons, caseReady, hd]
      simpa using ih ht
    | wsToDocker =>
      simp [List.find?_cons, caseReady, Option.isSome_iff_ne_none, hw]
    | ctxDone =>
      have ht : SelectCase.wsToDocker ∈ t := by simpa using hs
      simp [List.find?_cons, caseReady, hctx]
      simpa using ih ht

/-- C8, as stated, fails: the client sends a resize frame and a line of text and then goes
away while the remote side is still running (its pump has sent nothing); ExecBridge closes
the remote handle and returns the error of the failed client read, not nil. -/
theorem ExecBridge_disconnect_returns_error :
    (remotePump demoWS (demoCli demoAttach) "c1").signal = none ∧
      (dockerClient.ExecBridge demoLib (demoCli demoAttach) background inOrder demoWS "c1"
        [some termSetupHook] ⟨false⟩).result = some (some closeErr) ∧
      (dockerClient.ExecBridge demoLib (demoCli demoAttach) background inOrder demoWS "c1"
        [some termSetupHook] ⟨false⟩).result ≠ some none ∧
      (dockerClient.ExecBridge demoLib (demoCli demoAttach) background inOrder demoWS "c1"
        [some termSetupHook] ⟨false⟩).main.getLast? = some Event.attachClose := by
  decide

/-- C8, amended. When, during bridging, a read of the next client message fails with an
error after any number of messages whose forwarding succeeded, while the remote-to-client
pump has sent nothing and the context is not cancelled, ExecBridge closes the remote
process handle (explicitly, and again by the deferred close) and returns that read error. -/
theorem ExecBridge_client_disconnect {σ : Type} (lib : Lib) (cli : DockerAPI) (ctx : Context)
    (sched : List SelectCase) (ws : WSConn) (id : String)
    (setupHook : List (Option (Hook σ))) (s : σ)
    (msgs : List (Nat × Bytes)) (rerr : GoError) (rest : List WsRead)
    (h : bridgingStarted cli id setupHook s = true)
    (hreads : ws.reads = msgs.map (fun m => WsRead.msg m.1 m.2) ++ WsRead.fail rerr :: rest)
    (hwrites : ∀ i, (attachOf cli id).connWriteErr i = none)
    (hremote : (remotePump ws cli id).signal = none)
    (hctx : ctx.doneErr = none)
    (hsched : SelectCase.wsToDocker ∈ sched) :
    (dockerClient.ExecBridge lib cli ctx sched ws id setupHook s).result = some (some rerr) ∧
      (dockerClient.ExecBridge lib cli ctx sched ws id setupHook s).main =
        setupCalls cli id setupHook s ++ [Event.attachClose, Event.attachClose] := by
  have hsig : (clientPump lib ws cli id setupHook s).signal = some (some rerr) := by
    unfold clientPump
    rw [hreads]
    exact pumpWsToDocker_read_fails lib _ _ _ msgs rerr rest hwrites
  have hsel := selectCase_only_client sched (remotePump ws cli id)
    (clientPump lib ws cli id setupHook s) ctx hremote (by simp [hsig]) hctx hsched
  rw [ExecBridge_bridging lib cli ctx sched ws id setupHook s h]
  simp only [remotePump, clientPump] at hsel hsig
  simp only [bridge, hsel, hsig, and_self]

theorem ExecBridge_client_disconnect_witness :
    bridgingStarted (demoCli demoAttach) "c1" [some termSetupHook] ⟨false⟩ = true ∧
    demoWS.reads =
      [(TextMessage, resizeFrame), (TextMessage, toBytes "ls\n")].map
        (fun m => WsRead.msg m.1 m.2) ++ WsRead.fail closeErr :: [] ∧
    (∀ i, (attachOf (demoCli demoAttach) "c1").connWriteErr i = none) ∧
    (remotePump demoWS (demoCli demoAttach) "c1").signal = none ∧
    background.doneErr = none ∧
    SelectCase.wsToDocker ∈ inOrder ∧
    (dockerClient.ExecBridge demoLib (demoCli demoAttach) background inOrder demoWS "c1"
        [some termSetupHook] ⟨false⟩).result = some (some closeErr) ∧
      (dockerClient.ExecBridge demoLib (demoCli demoAttach) background inOrder demoWS "c1"
        [some termSetupHook] ⟨false⟩).main =
        setupCalls (demoCli demoAttach) "c1" [some termSetupHook] (⟨false⟩ : sessionState) ++
          [Event.attachClose, Event.attachClose] :=
  ⟨by decide, by decide, fun _ => rfl, by decide, by decide, by decide,
    ExecBridge_client_disconnect demoLib (demoCli demoAttach) background inOrder demoWS "c1"
      [some termSetupHook] ⟨false⟩ [(TextMessage, resizeFrame), (TextMessage, toBytes "ls\n")]
      closeErr [] (by decide) (by decide) (fun _ => rfl) (by decide) (by decide) (by decide)⟩

/-! ## The session registry in execWS -/

/-- C10. For every upgraded exec connection (the server has a Docker client and the
upgrade gave a connection), ExecBridge is called with the registry holding, under the key
made of the target ID, a dash and the timestamp, a session with bootstrapSent false, the
other entries unchanged; and whatever ExecBridge returns, nil or an error, execWS returns
and leaves the registry without an entry under that key, every other entry being what it
was before the call. -/
theorem execWS_registry (lib : Lib) (srv : Server) (cli : DockerAPI) (ctx : Context)
    (sched : List SelectCase) (conn : WSConn) (now : String) (id : String)
    (hcli : srv.dcli = some cli) :
    (Server.execWS lib srv ctx sched (Except.ok conn) now id).atBridge =
        some (srv.activeSessions.insert (id ++ "-" ++ now) ⟨false⟩) ∧
      (srv.activeSessions.insert (id ++ "-" ++ now) ⟨false⟩) (id ++ "-" ++ now) =
        some ⟨false⟩ ∧
      (∀ k, k ≠ id ++ "-" ++ now →
        (srv.activeSessions.insert (id ++ "-" ++ now) ⟨false⟩) k = srv.activeSessions k) ∧
      (∀ r, (dockerClient.ExecBridge lib cli ctx sched conn id [some termSetupHook]
            (⟨false⟩ : sessionState)).result = some r →
        (Server.execWS lib srv ctx sched (Except.ok conn) now id).returned = true ∧
        (Server.execWS lib srv ctx sched (Except.ok conn) now id).activeSessions
            (id ++ "-" ++ now) = none ∧
        ∀ k, k ≠ id ++ "-" ++ now →
          (Server.execWS lib srv ctx sched (Except.ok conn) now id).activeSessions k =
            srv.activeSessions k) := by
  refine ⟨?_, ?_, ?_, ?_⟩
  · simp only [Server.execWS, hcli]
    split <;> rfl
  · simp [Registry.insert]
  · intro k hk
    simp [Registry.insert, hk]
  · intro r hr
    simp only [Server.execWS, hcli, hr]
    refine ⟨trivial, ?_, ?_⟩
    · simp [Registry.delete]
    · intro k hk
      simp [Registry.delete, Registry.insert, hk]

theorem execWS_registry_witness :
    demoServer.dcli = some (demoCli demoAttach) ∧
    (Server.execWS demoLib demoServer background inOrder (Except.ok demoWS) "20240101-120000.000"
        "c1").atBridge =
      some (demoServer.activeSessions.insert ("c1" ++ "-" ++ "20240101-120000.000") ⟨false⟩) ∧
    (Server.execWS demoLib demoServer background inOrder (Except.ok demoWS) "20240101-120000.000"
        "c1").returned = true ∧
    (Server.execWS demoLib demoServer background inOrder (Except.ok demoWS) "20240101-120000.000"
        "c1").activeSessions ("c1" ++ "-" ++ "20240101-120000.000") = none :=
  ⟨rfl,
    (execWS_registry demoLib demoServer (demoCli demoAttach) background inOrder demoWS
      "20240101-120000.000" "c1" rfl).1,
    ((execWS_registry demoLib demoServer (demoCli demoAttach) background inOrder demoWS
      "20240101-120000.000" "c1" rfl).2.2.2 (some closeErr) (by decide)).1,
    ((execWS_registry demoLib demoServer (demoCli demoAttach) background inOrder demoWS
      "20240101-120000.000" "c1" rfl).2.2.2 (some closeErr) (by decide)).2.1⟩

/-! ## The diagnostic frame of execWS -/

theorem negotiate_inspects (cli : DockerAPI) (id : String) (l : List (List String))
    (st : Negotiation) :
    (negotiate cli id l st).events.filter isInspect = st.events.filter isInspect := by
  induction l generalizing st with
  | nil => rfl
  | cons a t ih =>
    rw [negotiate]
    split
    · simp [isInspect]
    · rw [ih]
      simp [isInspect]

theorem shellNote_inspects (picked : List String) :
    (shellNote picked).filter isInspect = [] := by
  unfold shellNote
  split <;> simp [isInspect]

theorem replicate_close_inspects (m : Nat) :
    (List.replicate m Event.attachClose).filter isInspect = [] := by
  induction m with
  | zero => rfl
  | succ n ih => simp [List.replicate_succ, isInspect]

theorem ExecBridge_inspects_once (lib : Lib) (cli : DockerAPI) (ctx : Context)
    (sched : List SelectCase) (ws : WSConn) (id : String) (session : sessionState) :
    ((dockerClient.ExecBridge lib cli ctx sched ws id [some termSetupHook] session).main.filter
      isInspect).length = 1 := by
  have hneg : (negotiated cli id).events.filter isInspect = [Event.ContainerInspect id] := by
    unfold negotiated
    rw [negotiate_inspects]
    simp [isInspect]
  have hhook : ∀ a : HijackedResponse,
      (termSetupHook a session).events.filter isInspect = [] := by
    intro a
    cases session with
    | mk b => cases b <;> simp [termSetupHook, isInspect]
  unfold dockerClient.ExecBridge
  cases hex : dockerClient.Exists cli id with
  | false => simp [isInspect]
  | true =>
    simp only [Bool.not_true, Bool.false_eq_true, if_false]
    by_cases hcond : (negotiated cli id).err ≠ none ∨ (negotiated cli id).resp.ID = ""
    · simp only [if_pos hcond, hneg, List.length_singleton]
    · simp only [if_neg hcond]
      cases hatt : (cli.ContainerExecAttach (negotiated cli id).resp.ID true).2 with
      | some err => simp [hneg, isInspect]
      | none =>
        simp only []
        cases hherr : (termSetupHook
            (cli.ContainerExecAttach (negotiated cli id).resp.ID true).1 session).err with
        | some err =>
          simp [List.filter_append, List.filter_cons, hneg, hhook, shellNote_inspects,
            isInspect]
        | none =>
          obtain ⟨m, hm⟩ := bridge_main lib ctx sched ws (negotiated cli id).resp.ID
            (cli.ContainerExecAttach (negotiated cli id).resp.ID true).1
            ((negotiated cli id).events ++
              [Event.ContainerExecAttach (negotiated cli id).resp.ID true] ++
              shellNote (negotiated cli id).picked ++
              Event.setupHook :: (termSetupHook
                (cli.ContainerExecAttach (negotiated cli id).resp.ID true).1 session).events)
            (shellNote (negotiated cli id).picked).length
            (connWrites (termSetupHook
              (cli.ContainerExecAttach (negotiated cli id).resp.ID true).1 session).events)
            (termSetupHook
              (cli.ContainerExecAttach (negotiated cli id).resp.ID true).1 session).state
          simp only []
          rw [hm]
          simp [List.filter_append, List.filter_cons, hneg, hhook, shellNote_inspects,
            replicate_close_inspects, isInspect]

/-- C11. For every upgraded exec connection (the server has a Docker client and the
upgrade gave a connection): when ExecBridge returns an error, execWS makes after the calls
of the bridge exactly two more, one binary frame to the client holding "[exec error] ",
the text of the error and a newline, then the closing of the connection, and returns; when
ExecBridge returns nil, it only closes the connection and returns, writing no diagnostic
frame. In both cases the bridge ran once: the calls of the run hold one inspection of the
target, and the pumps are those of that one ExecBridge run. -/
theorem execWS_diagnostic (lib : Lib) (srv : Server) (cli : DockerAPI) (ctx : Context)
    (sched : List SelectCase) (conn : WSConn) (now : String) (id : String)
    (hcli : srv.dcli = some cli) :
    (∀ err, (dockerClient.ExecBridge lib cli ctx sched conn id [some termSetupHook]
          (⟨false⟩ : sessionState)).result = some (some err) →
        (Server.execWS lib srv ctx sched (Except.ok conn) now id).returned = true ∧
        (Server.execWS lib srv ctx sched (Except.ok conn) now id).main =
          (dockerClient.ExecBridge lib cli ctx sched conn id [some termSetupHook]
            (⟨false⟩ : sessionState)).main ++
          [Event.wsWriteMessage BinaryMessage (toBytes ("[exec error] " ++ err.text ++ "\n")),
            Event.wsClose]) ∧
      ((dockerClient.ExecBridge lib cli ctx sched conn id [some termSetupHook]
          (⟨false⟩ : sessionState)).result = some none →
        (Server.execWS lib srv ctx sched (Except.ok conn) now id).returned = true ∧
        (Server.execWS lib srv ctx sched (Except.ok conn) now id).main =
          (dockerClient.ExecBridge lib cli ctx sched conn id [some termSetupHook]
            (⟨false⟩ : sessionState)).main ++ [Event.wsClose]) ∧
      ((Server.execWS lib srv ctx sched (Except.ok conn) now id).returned = true →
        ((Server.execWS lib srv ctx sched (Except.ok conn) now id).main.filter
          isInspect).length = 1) ∧
      (Server.execWS lib srv ctx sched (Except.ok conn) now id).dockerToWS =
        (dockerClient.ExecBridge lib cli ctx sched conn id [some termSetupHook]
          (⟨false⟩ : sessionState)).dockerToWS ∧
      (Server.execWS lib srv ctx sched (Except.ok conn) now id).wsToDocker =
        (dockerClient.ExecBridge lib cli ctx sched conn id [some termSetupHook]
          (⟨false⟩ : sessionState)).wsToDocker := by
  have hone := ExecBridge_inspects_once lib cli ctx sched conn id ⟨false⟩
  refine ⟨?_, ?_, ?_, ?_, ?_⟩
  · intro err herr
    simp only [Server.execWS, hcli, herr]
    exact ⟨trivial, by simp⟩
  · intro hnil
    simp only [Server.execWS, hcli, hnil]
    exact ⟨trivial, by simp⟩
  · simp only [Server.execWS, hcli]
    cases hres : (dockerClient.ExecBridge lib cli ctx sched conn id [some termSetupHook]
        (⟨false⟩ : sessionState)).result with
    | none => simp
    | some r =>
      intro _
      cases r with
      | none => simpa [List.filter_append, isInspect] using hone
      | some err => simpa [List.filter_append, List.filter_cons, isInspect] using hone
  · simp only [Server.execWS, hcli]
    split <;> rfl
  · simp only [Server.execWS, hcli]
    split <;> rfl

theorem execWS_diagnostic_witness :
    demoServer.dcli = some (demoCli demoAttach) ∧
    (Server.execWS demoLib demoServer background inOrder (Except.ok demoWS) "20240101-120000.000"
        "c1").main =
      (dockerClient.ExecBridge demoLib (demoCli demoAttach) background inOrder demoWS "c1"
          [some termSetupHook] (⟨false⟩ : sessionState)).main ++
        [Event.wsWriteMessage BinaryMessage
            (toBytes ("[exec error] " ++ closeErr.text ++ "\n")),
          Event.wsClose] ∧
    (Server.execWS demoLib ⟨some (demoCli endedAttach), fun _ => none⟩ background inOrder
        (Except.ok demoWS) "20240101-120000.000" "c1").main =
      (dockerClient.ExecBridge demoLib (demoCli endedAttach) background inOrder demoWS "c1"
          [some termSetupHook] (⟨false⟩ : sessionState)).main ++ [Event.wsClose] ∧
    ((Server.execWS demoLib demoServer background inOrder (Except.ok demoWS)
        "20240101-120000.000" "c1").main.filter isInspect).length = 1 :=
  ⟨rfl,
    ((execWS_diagnostic demoLib demoServer (demoCli demoAttach) background inOrder demoWS
      "20240101-120000.000" "c1" rfl).1 closeErr (by decide)).2,
    ((execWS_diagnostic demoLib ⟨some (demoCli endedAttach), fun _ => none⟩
      (demoCli endedAttach) background inOrder demoWS "20240101-120000.000" "c1" rfl).2.1
      (by decide)).2,
    (execWS_diagnostic demoLib demoServer (demoCli demoAttach) background inOrder demoWS
      "20240101-120000.000" "c1" rfl).2.2.1 (by decide)⟩

end TerminoGrid
